import Mathlib

/-
Verification development for the GitScope repository scanner
(src/gitscope.py).  The Python program walks a directory tree with
`Path.rglob(".git")`, opens each marker's parent directory as a git
repository (class `GitProject`), extracts a status record, and collects
the records in `GitScope.scan_projects`.

Shallow embedding conventions:
* Results of "library" calls (GitPython, the filesystem, the clock) are
  supplied by the environment (`RepoData`, `ScanEnv`): the embedding
  models the program's own control flow over those results.
* Python exceptions become `Except PyError`.  `PyError.invalidGitRepo`
  is `InvalidGitRepositoryError` (the only exception `GitProject.__init__`
  catches); every other exception kind (TypeError on a detached HEAD,
  UnicodeDecodeError reading a README, ...) is `PyError.other`.
* Timestamps are integer seconds; `datetime.now() - datetime.fromtimestamp(t)`
  measured in whole days is floor division by 86400 (`Int.fdiv`), matching
  Python's `timedelta.days`.
* Python floats: all arithmetic performed on scores (`x * 0.5 + y * 0.5`
  with small integers) is exact in IEEE double, so `ℚ` is a faithful model.
-/

namespace GitScope

/-- Exception kinds distinguished by the program: `InvalidGitRepositoryError`
(the only class `GitProject.__init__` catches) versus every other exception. -/
inductive PyError where
  | invalidGitRepo
  | other
deriving DecidableEq, Repr

/-- Environment-supplied results of the GitPython calls made for one
candidate directory (gitscope.py lines 37-97).

* `bare` — `repo.bare`.
* `headValid` — `repo.head.is_valid()` (false means unborn HEAD, no commits).
* `activeBranch` — `str(repo.active_branch)`; raises TypeError (`other`)
  when HEAD is detached.
* `isDirty` — `repo.is_dirty()`.
* `headCommitTime` — `repo.head.commit.committed_date`, seconds.
* `localCommits` — the set of commits reachable from the active branch.
* `originCommits` — the set of commits reachable from `origin/<branch>`,
  or `none` when no such ref exists (then `iter_commits` on the range raises).
* `compareError` — any other failure inside the two `iter_commits` range
  calls on lines 59-60.
* `readme` — `none` when `<path>/README.md` does not exist; otherwise the
  result of reading it (the read itself may raise).
* `commitLog` — `list(repo.iter_commits())`: committed dates, newest first;
  may raise (e.g. corrupted history). -/
structure RepoData where
  bare : Bool
  headValid : Bool
  activeBranch : Except PyError String
  isDirty : Bool
  headCommitTime : Int
  localCommits : Finset ℕ
  originCommits : Option (Finset ℕ)
  compareError : Bool
  readme : Option (Except PyError String)
  commitLog : Except PyError (List Int)

/-- The `self.status` dict of a `GitProject`.  Each field is `none` while the
corresponding key has not been assigned; `last_commit` maps to an optional
timestamp (`some none` models the key being set to Python `None`). -/
structure Status where
  active_branch : Option String := none
  is_dirty : Option Bool := none
  last_commit : Option (Option Int) := none
  commits_behind : Option Nat := none
  commits_ahead : Option Nat := none
deriving DecidableEq, Repr

/-- A `GitProject` after `__init__` returns: `repoOpen` models the truthiness
of `self.repo` (it was assigned a `Repo` object), `status` the status dict,
`readme_score` and `progress` the two scalar attributes (both initialised
to 0 on lines 34-35). -/
structure GitProject where
  name : String
  repoOpen : Bool
  status : Status
  readme_score : Nat
  progress : ℚ
deriving DecidableEq, Repr

instance {ε α : Type} [DecidableEq ε] [DecidableEq α] : DecidableEq (Except ε α) :=
  fun a b =>
    match a, b with
    | .ok x, .ok y =>
      if h : x = y then .isTrue (by rw [h]) else .isFalse (by simp [h])
    | .error x, .error y =>
      if h : x = y then .isTrue (by rw [h]) else .isFalse (by simp [h])
    | .ok _, .error _ => .isFalse (by simp)
    | .error _, .ok _ => .isFalse (by simp)

/-- Number of words of a string under Python's `str.split()` (split on
whitespace runs, discarding empty pieces) — gitscope.py line 78. -/
def wordCount (s : String) : Nat :=
  ((s.split Char.isWhitespace).filter (fun w => w ≠ "")).length

/-- The score `min(100, length // 10)` computed from a word count
(gitscope.py line 79). -/
def readme_count_score (n : Nat) : Nat := min 100 (n / 10)

/-- `GitProject.analyze_readme` (lines 70-79): 0 when no `README.md` exists,
otherwise read the file (propagating a read error) and score its word count. -/
def analyze_readme (readme : Option (Except PyError String)) : Except PyError Nat :=
  match readme with
  | none => .ok 0
  | some (.error e) => .error e
  | some (.ok content) => .ok (readme_count_score (wordCount content))

/-- Whole days between `now` and timestamp `t`: Python `(now - t).days`,
i.e. floor division of the difference in seconds by 86400. -/
def daysBetween (now t : Int) : Int := (now - t).fdiv 86400

/-- The `days_since_last_commit` local of `GitProject.calculate_progress`
(lines 83-93): defaults to 1 when listing commits raises or yields nothing,
otherwise the whole days since `commits[0]` (the tip). -/
def days_since_last_commit (now : Int) (log : Except PyError (List Int)) : Int :=
  match log with
  | .error _ => 1
  | .ok [] => 1
  | .ok (t :: _) => daysBetween now t

/-- The `days_since_first_commit` local (lines 82, 88-89): computed from
`commits[-1]` with a floor of 1 but never used in the final score. -/
def days_since_first_commit (now : Int) (log : Except PyError (List Int)) : Int :=
  match log with
  | .error _ => 1
  | .ok [] => 1
  | .ok (t :: ts) => max (daysBetween now ((t :: ts).getLastD 0)) 1

/-- `age_factor = min(100, days_since_last_commit * 2)` (line 96). -/
def age_factor (now : Int) (log : Except PyError (List Int)) : Int :=
  min 100 (days_since_last_commit now log * 2)

/-- The final line of `calculate_progress`:
`readme_score * 0.5 + age_factor * 0.5` (line 97), exact in `ℚ`. -/
def progress_value (rs : Nat) (af : Int) : ℚ :=
  (rs : ℚ) * (1 / 2) + (af : ℚ) * (1 / 2)

/-- `GitProject.calculate_progress` (lines 81-97). -/
def calculate_progress (readme_score : Nat) (now : Int)
    (log : Except PyError (List Int)) : ℚ :=
  progress_value readme_score (age_factor now log)

/-- The two `iter_commits` range calls of lines 59-60, as a single result:
`(commits_behind, commits_ahead)`.  When `origin/<branch>` does not exist or
any other comparison failure occurs, the call raises.  On success,
`behind` counts the commits reachable from `origin/<branch>` but not from the
local branch, and `ahead` the reverse. -/
def range_count (r : RepoData) : Except PyError (Nat × Nat) :=
  if r.compareError then .error .other
  else
    match r.originCommits with
    | none => .error .other
    | some o => .ok ((o \ r.localCommits).card, (r.localCommits \ o).card)

/-- The `try/except` of lines 58-62: any comparison failure is swallowed and
both counts default to 0. -/
def caught_counts (r : RepoData) : Nat × Nat :=
  match range_count r with
  | .error _ => (0, 0)
  | .ok c => c

/-- The status dict written by `gather_info` on the unborn-HEAD path
(lines 46-52). -/
def unbornStatus : Status :=
  { active_branch := some "-", is_dirty := some false, last_commit := some none,
    commits_behind := some 0, commits_ahead := some 0 }

/-- The status dict written by `gather_info` on the happy path for branch
name `b` (lines 54-65). -/
def happyStatus (b : String) (r : RepoData) : Status :=
  { active_branch := some b, is_dirty := some r.isDirty,
    last_commit := some (some r.headCommitTime),
    commits_behind := some (caught_counts r).1,
    commits_ahead := some (caught_counts r).2 }

/-- `GitProject.gather_info` (lines 45-68), called with `self.repo` open and
non-bare.  An uncaught exception is modelled as `.error (e, p)` where `p` is
the partially-updated project the caller observes (Python exceptions leave
the already-assigned attributes in place). -/
def gather_info (now : Int) (name : String) (r : RepoData) :
    Except (PyError × GitProject) GitProject :=
  if r.headValid = false then
    .ok ⟨name, true, unbornStatus, 0, 0⟩
  else
    match r.activeBranch with
    | .error e => .error (e, ⟨name, true, {}, 0, 0⟩)
    | .ok b =>
      match analyze_readme r.readme with
      | .error e => .error (e, ⟨name, true, happyStatus b r, 0, 0⟩)
      | .ok rs =>
        .ok ⟨name, true, happyStatus b r, rs, calculate_progress rs now r.commitLog⟩

/-- `GitProject.__init__` (lines 29-43) for the candidate named `name`, given
the result `openRes` of `Repo(path)`.  Only `InvalidGitRepositoryError` is
caught; note that when `Repo(path)` succeeds and the repository is bare, the
explicit `raise InvalidGitRepositoryError` on line 40 happens *after*
`self.repo` was assigned, so the returned project still has `repoOpen = true`. -/
def mkGitProject (now : Int) (name : String) (openRes : Except PyError RepoData) :
    Except PyError GitProject :=
  match openRes with
  | .error .invalidGitRepo => .ok ⟨name, false, {}, 0, 0⟩
  | .error e => .error e
  | .ok r =>
    if r.bare then .ok ⟨name, true, {}, 0, 0⟩
    else
      match gather_info now name r with
      | .ok p => .ok p
      | .error (.invalidGitRepo, p) => .ok p
      | .error (e, _) => .error e

/-- One filesystem entry beneath the base directory: its parent directory
(as a component list relative to the base), its final name, and whether it
is a directory or a plain file. -/
structure FSEntry where
  dir : List String
  name : String
  isDir : Bool
deriving DecidableEq, Repr

/-- The environment of one `GitScope` scan: the clock, the base directory
name, the filesystem beneath the base (`none` when the base path does not
exist — `Path.rglob` then yields nothing), and the per-candidate repository
data produced by opening each candidate root. -/
structure ScanEnv where
  now : Int
  baseName : String
  fs : Option (List FSEntry)
  repoAt : List String → Except PyError RepoData

/-- `self.base_dir.rglob(".git")` (line 107): every entry whose *name* is
`".git"`, directory or plain file alike, in traversal order. -/
def rglob_git (env : ScanEnv) : List FSEntry :=
  match env.fs with
  | none => []
  | some es => es.filter (fun e => e.name = ".git")

/-- The candidate roots submitted to `GitProject`: the parent directory of
each marker (line 108). -/
def candidate_roots (env : ScanEnv) : List (List String) :=
  (rglob_git env).map (fun e => e.dir)

/-- `path.name` for a candidate root given as components relative to the
base directory (the base directory's own name when the list is empty). -/
def dirName (base : String) (dir : List String) : String := dir.getLastD base

/-- The loop body of `scan_projects` (lines 107-111): build a `GitProject`
for each candidate root and append it when `project.repo` is truthy.  An
uncaught per-candidate exception aborts the whole loop. -/
def scan_loop (env : ScanEnv) : List (List String) → List GitProject →
    Except PyError (List GitProject)
  | [], acc => .ok acc
  | root :: rest, acc =>
    match mkGitProject env.now (dirName env.baseName root) (env.repoAt root) with
    | .error e => .error e
    | .ok p => scan_loop env rest (if p.repoOpen then acc ++ [p] else acc)

/-- `GitScope.scan_projects` (lines 105-111): clear the previous project
list, then scan.  The previous list `_prev` is discarded by
`self.projects.clear()` on line 106, so the result never depends on it. -/
def scan_projects (env : ScanEnv) (_prev : List GitProject) :
    Except PyError (List GitProject) :=
  scan_loop env (candidate_roots env) []

/-- Truthiness of an `Except` result, for stating that a call returned
normally. -/
def is_ok {ε α : Type} : Except ε α → Bool
  | .ok _ => true
  | .error _ => false

/-- A candidate's open result raises nothing that `__init__` fails to catch:
the open itself may only fail with `InvalidGitRepositoryError`, and on the
non-bare born-HEAD path neither the active-branch read nor the README read
raises an exception of any other class. -/
def branch_read_ok (r : RepoData) : Bool :=
  match r.activeBranch with
  | .error .other => false
  | _ => true

/-- The README read (lines 75-76) raises no exception that `__init__` fails
to catch. -/
def readme_read_ok (r : RepoData) : Bool :=
  match r.readme with
  | some (.error .other) => false
  | _ => true

/-- No uncaught exception escapes `GitProject.__init__` for this open
result. -/
def no_uncaught_error (o : Except PyError RepoData) : Bool :=
  match o with
  | .error .invalidGitRepo => true
  | .error .other => false
  | .ok r => r.bare || !r.headValid || (branch_read_ok r && readme_read_ok r)

/-- The record a candidate root contributes to the scan result: `some p`
when `__init__` returns with `self.repo` truthy, `none` when the candidate
is skipped (and meaningless when the candidate raises, since the scan then
aborts). -/
def keptRecord (env : ScanEnv) (root : List String) : Option GitProject :=
  match mkGitProject env.now (dirName env.baseName root) (env.repoAt root) with
  | .ok p => if p.repoOpen then some p else none
  | .error _ => none

/-! Concrete inputs used by the counterexamples and witnesses. -/

/-- A healthy repository: non-bare, one commit dated at time 0, clean tree,
branch `main`, no `origin/main` ref, no README. -/
def baseRepo : RepoData :=
  { bare := false, headValid := true, activeBranch := .ok "main", isDirty := false,
    headCommitTime := 0, localCommits := ∅, originCommits := none, compareError := false,
    readme := none, commitLog := .ok [0] }

/-- A candidate whose `Repo(path)` call succeeds but whose repository is bare. -/
def bareOpenRepo : RepoData := { baseRepo with bare := true }

/-- A repository whose active-branch read raises an exception that is not
`InvalidGitRepositoryError` (GitPython raises TypeError on a detached HEAD). -/
def detachedRepo : RepoData := { baseRepo with activeBranch := .error .other }

/-- A repository whose only commit is dated one hour in the future relative
to the scanner's clock (clock skew or a forged commit date). -/
def skewedRepo : RepoData := { baseRepo with commitLog := .ok [3600] }

/-- A freshly initialised repository: unborn HEAD, no commits. -/
def unbornRepo : RepoData := { baseRepo with headValid := false }

/-- A repository where `origin/<branch>` exists: local branch reaches commits
`{1, 2, 3}`, the remote-tracking branch reaches `{3, 4}`. -/
def originPresentRepo : RepoData :=
  { baseRepo with localCommits := {1, 2, 3}, originCommits := some ({3, 4} : Finset ℕ) }

/-- The record extracted from `baseRepo` for candidate `goodproj`. -/
def goodRecord : GitProject :=
  ⟨"goodproj", true, happyStatus "main" baseRepo, 0, calculate_progress 0 0 (.ok [0])⟩

/-- A directory tree holding one bare repository and one normal repository. -/
def envBare : ScanEnv :=
  { now := 0, baseName := "base",
    fs := some [⟨["barerepo"], ".git", true⟩, ⟨["goodproj"], ".git", true⟩],
    repoAt := fun root =>
      if root = ["barerepo"] then .ok bareOpenRepo
      else if root = ["goodproj"] then .ok baseRepo
      else .error .invalidGitRepo }

/-- A directory tree holding one detached-HEAD repository and one normal
repository. -/
def envDetached : ScanEnv :=
  { now := 0, baseName := "base",
    fs := some [⟨["detached"], ".git", true⟩, ⟨["goodproj"], ".git", true⟩],
    repoAt := fun root =>
      if root = ["detached"] then .ok detachedRepo
      else if root = ["goodproj"] then .ok baseRepo
      else .error .invalidGitRepo }

/-- The same tree with only the normal repository present. -/
def envGoodOnly : ScanEnv :=
  { envDetached with fs := some [⟨["goodproj"], ".git", true⟩] }

/-- An existing but empty base directory. -/
def envEmpty : ScanEnv :=
  { now := 0, baseName := "base", fs := some [],
    repoAt := fun _ => .error .invalidGitRepo }

/-- A base directory holding files and directories but no entry named
`.git`. -/
def envNoMarkers : ScanEnv :=
  { now := 0, baseName := "base",
    fs := some [⟨[], "src", true⟩, ⟨["src"], "main.py", false⟩],
    repoAt := fun _ => .error .invalidGitRepo }

/-- A base directory holding a linked worktree: the `.git` entry is a plain
file, not a directory. -/
def envWorktree : ScanEnv :=
  { now := 0, baseName := "base", fs := some [⟨["wt"], ".git", false⟩],
    repoAt := fun _ => .error .invalidGitRepo }

/-! Helper lemmas. -/

/-- A successful README analysis never scores above 100. -/
theorem analyze_readme_le_100 {rd : Option (Except PyError String)} {rs : Nat}
    (h : analyze_readme rd = .ok rs) : rs ≤ 100 := by
  match rd with
  | none =>
    simp [analyze_readme] at h
    omega
  | some (.error e) => simp [analyze_readme] at h
  | some (.ok c) =>
    simp [analyze_readme] at h
    rw [← h]
    exact min_le_left _ _

/-- On the non-bare, born-HEAD path with a readable branch name and a
successful README analysis, `__init__` returns the fully populated record. -/
theorem mk_happy (now : Int) (name b : String) (rs : Nat) (r : RepoData)
    (hb : r.bare = false) (hv : r.headValid = true)
    (hbr : r.activeBranch = .ok b) (hrd : analyze_readme r.readme = .ok rs) :
    mkGitProject now name (.ok r) =
      .ok ⟨name, true, happyStatus b r, rs, calculate_progress rs now r.commitLog⟩ := by
  simp [mkGitProject, gather_info, hb, hv, hbr, hrd]

/-- When a candidate's open result admits no uncaught exception,
`__init__` returns normally. -/
theorem mk_ok_of_no_uncaught (now : Int) (name : String)
    (o : Except PyError RepoData) (h : no_uncaught_error o = true) :
    ∃ p, mkGitProject now name o = .ok p := by
  match o with
  | .error .invalidGitRepo => exact ⟨_, rfl⟩
  | .error .other => simp [no_uncaught_error] at h
  | .ok r =>
    cases hb : r.bare with
    | true =>
      refine ⟨⟨name, true, {}, 0, 0⟩, ?_⟩
      simp [mkGitProject, hb]
    | false =>
      cases hv : r.headValid with
      | false =>
        refine ⟨⟨name, true, unbornStatus, 0, 0⟩, ?_⟩
        simp [mkGitProject, gather_info, hb, hv]
      | true =>
        cases hbr : r.activeBranch with
        | error e =>
          cases e with
          | invalidGitRepo =>
            refine ⟨⟨name, true, {}, 0, 0⟩, ?_⟩
            simp [mkGitProject, gather_info, hb, hv, hbr]
          | other =>
            exfalso
            simp [no_uncaught_error, branch_read_ok, hb, hv, hbr] at h
        | ok b =>
          cases hrm : r.readme with
          | none =>
            exact ⟨_, mk_happy now name b 0 r hb hv hbr (by simp [analyze_readme, hrm])⟩
          | some rres =>
            cases rres with
            | ok c =>
              exact ⟨_, mk_happy now name b (readme_count_score (wordCount c)) r hb hv hbr
                (by simp [analyze_readme, hrm])⟩
            | error e =>
              cases e with
              | invalidGitRepo =>
                refine ⟨⟨name, true, happyStatus b r, 0, 0⟩, ?_⟩
                simp [mkGitProject, gather_info, analyze_readme, hb, hv, hbr, hrm]
              | other =>
                exfalso
                simp [no_uncaught_error, branch_read_ok, readme_read_ok, hb, hv, hbr, hrm] at h

/-- The scan loop over candidates free of uncaught exceptions collects
exactly the kept records, appended to the accumulator. -/
theorem scan_loop_ok (env : ScanEnv) (roots : List (List String))
    (h : ∀ root ∈ roots, no_uncaught_error (env.repoAt root) = true) :
    ∀ acc : List GitProject,
      scan_loop env roots acc = .ok (acc ++ roots.filterMap (keptRecord env)) := by
  induction roots with
  | nil => intro acc; simp [scan_loop]
  | cons root rest ih =>
    intro acc
    obtain ⟨p, hp⟩ := mk_ok_of_no_uncaught env.now (dirName env.baseName root)
      (env.repoAt root) (h root (by simp))
    have hrest : ∀ x ∈ rest, no_uncaught_error (env.repoAt x) = true :=
      fun x hx => h x (List.mem_cons_of_mem _ hx)
    have hk : keptRecord env root = if p.repoOpen then some p else none := by
      simp [keptRecord, hp]
    have step : scan_loop env (root :: rest) acc =
        scan_loop env rest (if p.repoOpen then acc ++ [p] else acc) := by
      simp [scan_loop, hp]
    rw [step, List.filterMap_cons, hk]
    cases p.repoOpen <;> simp [ih hrest]

/-- On the non-bare, born-HEAD path with a readable branch name, whenever the
README read raises nothing uncatchable the resulting status dict is the happy
one (in particular the ahead/behind keys are present). -/
theorem mk_status_happy (now : Int) (name b : String) (r : RepoData)
    (hb : r.bare = false) (hv : r.headValid = true)
    (hbr : r.activeBranch = .ok b) (hrd : readme_read_ok r = true) :
    (mkGitProject now name (.ok r)).map (fun p => p.status) = .ok (happyStatus b r) := by
  cases hrm : r.readme with
  | none =>
    rw [mk_happy now name b 0 r hb hv hbr (by simp [analyze_readme, hrm])]
    rfl
  | some rres =>
    cases rres with
    | ok c =>
      rw [mk_happy now name b (readme_count_score (wordCount c)) r hb hv hbr
        (by simp [analyze_readme, hrm])]
      rfl
    | error e =>
      cases e with
      | invalidGitRepo =>
        simp [mkGitProject, gather_info, analyze_readme, hb, hv, hbr, hrm, Except.map]
      | other =>
        exfalso
        simp [readme_read_ok, hrm] at hrd

/-! Claim theorems. -/

/-- Claim C1 (code bug): the code does NOT omit a candidate whose repository
opens as a bare repository.  `self.repo = Repo(path)` on line 38 is assigned
before the bare check on lines 39-40 raises, and the handler leaves it in
place, so `scan_projects`'s `if project.repo:` test is truthy and appends the
bare project — with an empty status dict that would make `display_dashboard`
crash.  A tree with one bare and one normal repository therefore yields a
result sequence of length 2, not 1 as the spec requires. -/
theorem scan_includes_bare_repo_eval :
    scan_projects envBare [] =
      .ok [⟨"barerepo", true, {}, 0, 0⟩, goodRecord] ∧
    (scan_projects envBare []).map List.length = .ok 2 := ⟨rfl, rfl⟩

/-- Claim C2 counterexample: an extraction failure on one candidate DOES
abort the scan of the others.  In `envDetached` the first candidate's
active-branch read raises a non-`InvalidGitRepositoryError` exception
(GitPython's TypeError on a detached HEAD); `__init__` does not catch it, so
`scan_projects` propagates the error and returns no record at all — although
the second candidate is perfectly valid, as scanning it alone shows. -/
theorem scan_aborts_on_candidate_error_cex :
    scan_projects envDetached [] = .error .other ∧
    scan_projects envGoodOnly [] = .ok [goodRecord] := ⟨rfl, rfl⟩

/-- Claim C2 (amended): per-candidate failures are isolated only when they
are `InvalidGitRepositoryError` (opening the repository, the bare check) or
occur inside the locally caught ahead/behind comparison or commit-history
listing; any other error while reading the active branch or the README
propagates to the scan's caller.  When no candidate raises such an uncaught
error, the scan returns normally with exactly one record per candidate whose
repository object was assigned. -/
theorem scan_failure_isolation_amended (env : ScanEnv) (prev : List GitProject)
    (h : ∀ root ∈ candidate_roots env, no_uncaught_error (env.repoAt root) = true) :
    scan_projects env prev = .ok ((candidate_roots env).filterMap (keptRecord env)) := by
  simpa [scan_projects] using scan_loop_ok env (candidate_roots env) h []

/-- Witness for the amended claim C2 at a concrete one-repository tree. -/
theorem scan_failure_isolation_amended_witness :
    scan_projects envGoodOnly [] =
      .ok ((candidate_roots envGoodOnly).filterMap (keptRecord envGoodOnly)) :=
  scan_failure_isolation_amended envGoodOnly [] (by decide)

/-- Claim C5: a valid non-bare repository with an unborn HEAD extracts to the
sentinel record — branch hyphen, clean, no last-commit time, zero ahead/behind
counts, zero README score and zero progress — and, since the record is the
same for every value of the remaining repository data, no further processing
(no README analysis, no ahead/behind comparison) takes place. -/
theorem unborn_head_spec (now : Int) (name : String) (r : RepoData)
    (hb : r.bare = false) (hv : r.headValid = false) :
    mkGitProject now name (.ok r) = .ok ⟨name, true, unbornStatus, 0, 0⟩ := by
  simp [mkGitProject, gather_info, hb, hv]

/-- Witness for claim C5 on a concrete freshly initialised repository. -/
theorem unborn_head_spec_witness :
    mkGitProject 0 "fresh" (.ok unbornRepo) = .ok ⟨"fresh", true, unbornStatus, 0, 0⟩ :=
  unborn_head_spec 0 "fresh" unbornRepo rfl rfl

/-- Claim C8: a scan's result never depends on the previously accumulated
project list (line 106 clears it first), so repeated calls are safe and the
collection after two consecutive scans equals the collection after one. -/
theorem scan_fresh_spec (env : ScanEnv) (p q : List GitProject) :
    scan_projects env p = scan_projects env q ∧
    (∀ l, scan_projects env p = .ok l → scan_projects env l = scan_projects env p) :=
  ⟨rfl, fun _ _ => rfl⟩

/-- Witness for claim C8 at a concrete empty base directory. -/
theorem scan_fresh_spec_witness :
    scan_projects envEmpty [goodRecord] = scan_projects envEmpty [] ∧
    scan_projects envEmpty [] = scan_projects envEmpty [goodRecord] :=
  ⟨(scan_fresh_spec envEmpty [goodRecord] []).1,
   (scan_fresh_spec envEmpty [goodRecord] []).2 [] rfl⟩

/-- Claim C9: when the base path does not exist, or no entry named `.git`
exists anywhere beneath it, the scan returns the empty sequence. -/
theorem scan_empty_when_no_markers (env : ScanEnv) (prev : List GitProject)
    (h : env.fs = none ∨ ∀ e ∈ env.fs.getD [], e.name ≠ ".git") :
    scan_projects env prev = .ok [] := by
  have hglob : rglob_git env = [] := by
    unfold rglob_git
    cases hfs : env.fs with
    | none => rfl
    | some es =>
      rcases h with h | h
      · rw [hfs] at h
        cases h
      · rw [hfs] at h
        simp only [Option.getD_some] at h
        simp only [List.filter_eq_nil_iff]
        intro a ha
        simpa using h a ha
  unfold scan_projects candidate_roots
  rw [hglob]
  rfl

/-- Witness for claim C9 at an existing marker-free base directory. -/
theorem scan_empty_when_no_markers_witness :
    scan_projects envNoMarkers [] = .ok [] :=
  scan_empty_when_no_markers envNoMarkers [] (Or.inr (by decide))

/-- Claim C10: marker matching is by name only — every filesystem entry
named `.git` beneath the base, whether a directory or a plain file, puts its
parent directory among the candidate roots the scan submits to the
extractor. -/
theorem marker_matched_by_name (env : ScanEnv) (es : List FSEntry)
    (dir : List String) (b : Bool)
    (hfs : env.fs = some es) (hmem : (⟨dir, ".git", b⟩ : FSEntry) ∈ es) :
    dir ∈ candidate_roots env := by
  unfold candidate_roots rglob_git
  rw [hfs]
  exact List.mem_map_of_mem _ (List.mem_filter.mpr ⟨hmem, by simp⟩)

/-- Witness for claim C10: a linked worktree has a plain-file `.git` entry
and its parent is still submitted as a candidate. -/
theorem marker_matched_by_name_witness :
    ["wt"] ∈ candidate_roots envWorktree :=
  marker_matched_by_name envWorktree [⟨["wt"], ".git", false⟩] ["wt"] false rfl
    (by decide)

/-- Claim C3 counterexample: the progress score can leave `[0, 100]`.  With a
tip commit dated one hour in the future (clock skew), `days_since_last_commit`
is `-1`, the age factor is `-2`, and the extracted record's progress score is
`-1`, which violates the claimed range. -/
theorem progress_range_cex :
    (mkGitProject 0 "skewed" (.ok skewedRepo)).map (fun p => p.progress) =
      .ok (-1) ∧
    ¬ (0 ≤ (-1 : ℚ) ∧ (-1 : ℚ) ≤ 100) := by
  constructor
  · rw [mk_happy 0 "skewed" "main" 0 skewedRepo rfl rfl rfl rfl]
    have hd : days_since_last_commit 0 skewedRepo.commitLog = -1 := by decide
    have hm : min (100 : Int) (-1 * 2) = -2 := by decide
    simp only [Except.map, calculate_progress, age_factor, hd, hm, Except.ok.injEq]
    norm_num [progress_value]
  · norm_num

/-- Claim C3 (amended): for every repository with at least one commit the
progress score equals exactly `readmeScore * 0.5 + ageFactor * 0.5`; it lies
in `[0, 100]` provided the tip commit's timestamp is not in the future
(whole days since the tip commit nonnegative); and in the scenario of a
2000-word README with a commit dated now, the README score is 100, the age
factor 0 and the progress score 50. -/
theorem progress_spec_amended (now : Int) (name b : String) (rs : Nat) (r : RepoData)
    (hb : r.bare = false) (hv : r.headValid = true)
    (hbr : r.activeBranch = .ok b) (hrd : analyze_readme r.readme = .ok rs) :
    is_ok (mkGitProject now name (.ok r)) = true ∧
    (∀ p, mkGitProject now name (.ok r) = .ok p →
      p.readme_score = rs ∧
      p.progress = progress_value p.readme_score (age_factor now r.commitLog) ∧
      (0 ≤ days_since_last_commit now r.commitLog →
        0 ≤ p.progress ∧ p.progress ≤ 100)) ∧
    (readme_count_score 2000 = 100 ∧ age_factor now (.ok [now]) = 0 ∧
      progress_value 100 (age_factor now (.ok [now])) = 50) := by
  have hmk := mk_happy now name b rs r hb hv hbr hrd
  have hage : age_factor now (.ok [now]) = 0 := by
    have hd : days_since_last_commit now (.ok [now]) = 0 := by
      show daysBetween now now = 0
      unfold daysBetween
      rw [sub_self, Int.zero_fdiv]
    unfold age_factor
    rw [hd]
    rfl
  refine ⟨by rw [hmk]; rfl, ?_, by decide, hage, ?_⟩
  · intro p hp
    rw [hmk] at hp
    cases hp
    refine ⟨rfl, rfl, fun hd => ?_⟩
    have hrs : rs ≤ 100 := analyze_readme_le_100 hrd
    have h0 : (0 : Int) ≤ age_factor now r.commitLog := by
      unfold age_factor
      omega
    have h1 : age_factor now r.commitLog ≤ 100 := min_le_left _ _
    have hrsq : (rs : ℚ) ≤ 100 := by exact_mod_cast hrs
    have h0q : (0 : ℚ) ≤ (age_factor now r.commitLog : ℚ) := by exact_mod_cast h0
    have h1q : ((age_factor now r.commitLog : Int) : ℚ) ≤ 100 := by exact_mod_cast h1
    unfold calculate_progress progress_value
    constructor
    · positivity
    · nlinarith [Nat.cast_nonneg (α := ℚ) rs]
  · rw [hage]
    norm_num [progress_value]

/-- Witness for the amended claim C3 at a concrete healthy repository. -/
theorem progress_spec_amended_witness :
    is_ok (mkGitProject 0 "goodproj" (.ok baseRepo)) = true ∧
    goodRecord.readme_score = 0 ∧
    goodRecord.progress = progress_value goodRecord.readme_score (age_factor 0 (.ok [0])) ∧
    0 ≤ goodRecord.progress ∧ goodRecord.progress ≤ 100 := by
  have h := progress_spec_amended 0 "goodproj" "main" 0 baseRepo rfl rfl rfl rfl
  have h2 := h.2.1 goodRecord rfl
  exact ⟨h.1, h2.1, h2.2.1, (h2.2.2 (by decide)).1, (h2.2.2 (by decide)).2⟩

/-- Claim C4: on the non-bare, born-HEAD path, any failure of the
ahead/behind comparison — `origin/<branch>` missing or any other comparison
error — leaves both counts at 0 without raising to the caller, and when the
comparison succeeds the ahead count is the number of commits reachable from
the local branch but not from `origin/<branch>` and the behind count the
reverse. -/
theorem ahead_behind_spec (now : Int) (name b : String) (r : RepoData)
    (hb : r.bare = false) (hv : r.headValid = true)
    (hbr : r.activeBranch = .ok b) (hrd : readme_read_ok r = true) :
    ((r.originCommits = none ∨ r.compareError = true) →
      (mkGitProject now name (.ok r)).map
          (fun p => (p.status.commits_behind, p.status.commits_ahead)) =
        .ok (some 0, some 0)) ∧
    (∀ o : Finset ℕ, r.originCommits = some o → r.compareError = false →
      (mkGitProject now name (.ok r)).map
          (fun p => (p.status.commits_behind, p.status.commits_ahead)) =
        .ok (some (o \ r.localCommits).card, some (r.localCommits \ o).card)) := by
  have hs := mk_status_happy now name b r hb hv hbr hrd
  cases hmk : mkGitProject now name (.ok r) with
  | error e =>
    rw [hmk] at hs
    simp [Except.map] at hs
  | ok p =>
    rw [hmk] at hs
    have hps : p.status = happyStatus b r := by
      simpa [Except.map] using hs
    constructor
    · intro hfail
      simp only [Except.map, hps, happyStatus, caught_counts, range_count]
      rcases hfail with h1 | h1
      · cases hc : r.compareError <;> simp [h1, hc]
      · simp [h1]
    · intro o ho hce
      simp only [Except.map, hps, happyStatus, caught_counts, range_count]
      simp [ho, hce]

/-- Witness for claim C4 at two concrete repositories: one without an
`origin/main` ref (both counts default to 0) and one with local commits
`{1, 2, 3}` against remote commits `{3, 4}` (behind 1, ahead 2). -/
theorem ahead_behind_spec_witness :
    (mkGitProject 0 "a" (.ok baseRepo)).map
        (fun p => (p.status.commits_behind, p.status.commits_ahead)) =
      .ok (some 0, some 0) ∧
    (mkGitProject 0 "b" (.ok originPresentRepo)).map
        (fun p => (p.status.commits_behind, p.status.commits_ahead)) =
      .ok (some 1, some 2) := by
  constructor
  · exact (ahead_behind_spec 0 "a" "main" baseRepo rfl rfl rfl rfl).1 (Or.inl rfl)
  · have h := (ahead_behind_spec 0 "b" "main" originPresentRepo rfl rfl rfl rfl).2
      ({3, 4} : Finset ℕ) rfl rfl
    exact h.trans (by rfl)

/-- Claim C6: the README score is 0 when no `README.md` exists; otherwise it
is `min(100, wordCount / 10)` with integer division over whitespace-delimited
words; it is monotonically non-decreasing in the word count and saturates at
100 for word counts of at least 1000. -/
theorem readme_score_spec :
    analyze_readme none = .ok 0 ∧
    (∀ s : String, analyze_readme (some (.ok s)) = .ok (readme_count_score (wordCount s))) ∧
    (∀ m n : Nat, m ≤ n → readme_count_score m ≤ readme_count_score n) ∧
    (∀ n : Nat, 1000 ≤ n → readme_count_score n = 100) := by
  refine ⟨rfl, fun s => rfl, fun m n h => ?_, fun n h => ?_⟩
  · unfold readme_count_score
    exact min_le_min le_rfl (Nat.div_le_div_right h)
  · unfold readme_count_score
    omega

/-- Witness for claim C6 at concrete strings and counts. -/
theorem readme_score_spec_witness :
    analyze_readme (some (.ok "alpha beta gamma")) =
      .ok (readme_count_score (wordCount "alpha beta gamma")) ∧
    readme_count_score 30 ≤ readme_count_score 999 ∧
    readme_count_score 2000 = 100 :=
  ⟨readme_score_spec.2.1 "alpha beta gamma",
   readme_score_spec.2.2.1 30 999 (by decide),
   readme_score_spec.2.2.2 2000 (by decide)⟩

/-- Claim C7: the age factor equals `min(100, days_since_last_commit * 2)`,
where `days_since_last_commit` is the whole days between now and the tip
commit's timestamp (0 when the tip commit is earlier the same day); it
saturates at 100 once that day count reaches 50 and equals twice the count
below that threshold; and on any error while listing the commit history the
day count defaults to 1, giving an age factor of 2. -/
theorem age_factor_spec (now : Int) (log : Except PyError (List Int)) :
    age_factor now log = min 100 (days_since_last_commit now log * 2) ∧
    (∀ t ts, log = .ok (t :: ts) →
      days_since_last_commit now log = (now - t).fdiv 86400 ∧
      (0 ≤ now - t → now - t < 86400 → days_since_last_commit now log = 0)) ∧
    (50 ≤ days_since_last_commit now log → age_factor now log = 100) ∧
    (days_since_last_commit now log < 50 →
      age_factor now log = days_since_last_commit now log * 2) ∧
    (∀ e, log = .error e →
      days_since_last_commit now log = 1 ∧ age_factor now log = 2) := by
  refine ⟨rfl, ?_, ?_, ?_, ?_⟩
  · intro t ts hlog
    subst hlog
    refine ⟨rfl, fun h1 h2 => ?_⟩
    show daysBetween now t = 0
    unfold daysBetween
    rw [Int.fdiv_eq_ediv _ (by norm_num)]
    omega
  · intro h
    unfold age_factor
    omega
  · intro h
    unfold age_factor
    omega
  · intro e hlog
    subst hlog
    exact ⟨rfl, rfl⟩

/-- Witness for claim C7: a tip commit 50 days old saturates the age factor
at 100, one a single day old gives 2, a tip commit earlier today gives a day
count of 0, and a corrupted history defaults to a day count of 1 and an age
factor of 2. -/
theorem age_factor_spec_witness :
    days_since_last_commit 4320000 (.ok [0]) = ((4320000 : Int) - 0).fdiv 86400 ∧
    days_since_last_commit 100 (.ok [50]) = 0 ∧
    age_factor 4320000 (.ok [0]) = 100 ∧
    age_factor 86400 (.ok [0]) = days_since_last_commit 86400 (.ok [0]) * 2 ∧
    days_since_last_commit 0 (.error .other) = 1 ∧
    age_factor 0 (.error .other) = 2 := by
  refine ⟨((age_factor_spec 4320000 (.ok [0])).2.1 0 [] rfl).1,
    ((age_factor_spec 100 (.ok [50])).2.1 50 [] rfl).2 (by decide) (by decide),
    (age_factor_spec 4320000 (.ok [0])).2.2.1 (by decide),
    (age_factor_spec 86400 (.ok [0])).2.2.2.1 (by decide),
    ((age_factor_spec 0 (.error .other)).2.2.2.2 .other rfl).1,
    ((age_factor_spec 0 (.error .other)).2.2.2.2 .other rfl).2⟩

end GitScope
